import Mathlib

/-!
Shallow embedding of the caddy `ipfilter` middleware (pyed/ipfilter,
file `ipfilter.go`): an HTTP request filter deciding allow/deny from the
client address against configured IP ranges and country codes.

Modelling conventions:
* Go `net.IP` byte slices are `List Nat` (each entry a byte value).
  `net.ParseIP` of a dotted quad yields the 16-byte IPv4-in-IPv6 form,
  reproduced here by `v4mapped`.
* Go strings are Lean `String`; the character-level work of
  `strings.Split` is done on `List Char` by `splitChar`.
* External collaborators (the maxminddb lookup, the filesystem, the
  stdlib address parser used on the client address, the next handler)
  are oracles threaded through explicitly.
* The package-level mutable flags (`hasCountryCodes`, `hasRanges`,
  `isBlock`, `strict`) become an explicit `Globals` state threaded
  through `ipfilterParse` and read by `ServeHTTP`.
-/

namespace IPF

/-- Byte strings: a Go byte slice as a list of byte values. -/
abbrev Bytes := List Nat

/-- Models Go `bytes.Compare`: lexicographic comparison of byte slices
(a proper prefix is smaller). -/
def bytesCompare : Bytes → Bytes → Ordering
  | [], [] => Ordering.eq
  | [], _ :: _ => Ordering.lt
  | _ :: _, [] => Ordering.gt
  | a :: as, b :: bs =>
    if a < b then Ordering.lt
    else if b < a then Ordering.gt
    else bytesCompare as bs

/-- Models the Go type `Range`: a pair of two `net.IP`.  The Go field
`end` is spelled `stop` because `end` is reserved in Lean. -/
structure Range where
  start : Bytes
  stop : Bytes
deriving Repr, DecidableEq

/-- Models `Range.InRange`: true iff
`bytes.Compare(ip, start) >= 0 && bytes.Compare(ip, end) <= 0`. -/
def Range.InRange (rng : Range) (ip : Bytes) : Bool :=
  bytesCompare ip rng.start != Ordering.lt &&
    bytesCompare ip rng.stop != Ordering.gt

/-- The 16-byte IPv4-in-IPv6 form that `net.ParseIP` produces for a
dotted quad `a.b.c.d`. -/
def v4mapped (a b c d : Nat) : Bytes :=
  [0, 0, 0, 0, 0, 0, 0, 0, 0, 0, 255, 255, a, b, c, d]

/-- Numeric (big-endian) value of an IPv4 address given by its octets. -/
def ipNum (a b c d : Nat) : Nat :=
  ((a * 256 + b) * 256 + c) * 256 + d

/-- Models `strings.Split` for a one-character separator, on the
character list of the string.  Empty fields are kept; splitting the
empty string yields one empty field, as in Go. -/
def splitChar (sep : Char) : List Char → List (List Char)
  | [] => [[]]
  | c :: rest =>
    if c = sep then [] :: splitChar sep rest
    else
      match splitChar sep rest with
      | [] => [[c]]
      | f :: fs => (c :: f) :: fs

/-- Models `strings.Join` for a one-character separator. -/
def joinChar (sep : Char) : List (List Char) → List Char
  | [] => []
  | [p] => p
  | p :: ps => p ++ sep :: joinChar sep ps

/-- Decimal digit test, as in the Go stdlib parser. -/
def isDigit (c : Char) : Bool := '0' ≤ c && c ≤ '9'

/-- Value of one decimal digit character. -/
def digitVal (c : Char) : Nat := c.toNat - ('0').toNat

/-- Decimal value of a digit string (Go `dtoi` accumulator). -/
def decVal (s : List Char) : Nat :=
  s.foldl (fun acc c => acc * 10 + digitVal c) 0

/-- Models one dotted-quad field of the Go stdlib IPv4 text parser
(`dtoi` plus the `n > 0xFF` check): the field parses iff it is
non-empty, all decimal digits, and its value is at most 255.  Leading
zeros are accepted, as in the `net` package of the vendored Go era. -/
def parseOctet (s : List Char) : Option Nat :=
  if s ≠ [] ∧ s.all isDigit = true ∧ decVal s ≤ 255 then some (decVal s)
  else none

/-- Models `net.ParseIP` restricted to IPv4 dotted-quad text, combined
with the `To4() != nil` guard that `ipfilterParse` applies to every
parse result: yields the four octet values on success.  Textual IPv6
forms fail this combined check in the Go code (their `To4()` is nil for
every string the config paths can build from a non-quad token), and
are mapped to `none` here; the exotic `::ffff:a.b.c.d` textual form,
which Go would accept, is not modelled. -/
def parseV4Quad (s : List Char) : Option (Nat × Nat × Nat × Nat) :=
  match splitChar '.' s with
  | [f0, f1, f2, f3] =>
    match parseOctet f0, parseOctet f1, parseOctet f2, parseOctet f3 with
    | some a, some b, some c, some d => some (a, b, c, d)
    | _, _, _, _ => none
  | _ => none

/-- Decimal string of a byte value, as produced by `net.IP.String()`
for each octet of an IPv4 address (no leading zeros). -/
def natToChars (n : Nat) : List Char := Nat.toDigits 10 n

/-- Models `net.IP.String()` on the v4-mapped addresses built by the
parser: the dotted-quad decimal text. -/
def ip4String (a b c d : Nat) : List Char :=
  joinChar '.' [natToChars a, natToChars b, natToChars c, natToChars d]

/-- Error message used by every failing `ip` token parse. -/
def parseErrMsg : String := "ipfilter: unable to parse IPv4 address"

/-- Models the body of the `case "ip"` token loop of `ipfilterParse`
for one token: the incomplete-address expansion (fewer than 4
dot-separated fields, padded with `0` / `255`), the dash-range branch
(split on `-`, last octet of the printed start substituted), and the
single-address branch.  Returns the `Range` appended to
`config.Ranges`, or the load error. -/
def parseIPToken (tok : List Char) : Except String Range :=
  let dotSplit := splitChar '.' tok
  if dotSplit.length < 4 then
    let startR := dotSplit ++ List.replicate (4 - dotSplit.length) [('0')]
    let endR := dotSplit ++ List.replicate (4 - dotSplit.length) [('2'), ('5'), ('5')]
    match parseV4Quad (joinChar '.' startR), parseV4Quad (joinChar '.' endR) with
    | some (a, b, c, d), some (e, f, g, h) =>
      Except.ok ⟨v4mapped a b c d, v4mapped e f g h⟩
    | _, _ => Except.error parseErrMsg
  else
    let splitted := splitChar '-' tok
    if splitted.length > 1 then
      match parseV4Quad (splitted.headD []) with
      | none => Except.error parseErrMsg
      | some (a, b, c, d) =>
        let fields := splitChar '.' (ip4String a b c d)
        let fields := fields.set 3 (splitted.getD 1 [])
        match parseV4Quad (joinChar '.' fields) with
        | none => Except.error parseErrMsg
        | some (e, f, g, h) =>
          Except.ok ⟨v4mapped a b c d, v4mapped e f g h⟩
    else
      match parseV4Quad tok with
      | none => Except.error parseErrMsg
      | some (a, b, c, d) => Except.ok ⟨v4mapped a b c d, v4mapped a b c d⟩

/-- Models the package-level mutable flags of `ipfilter.go`. -/
structure Globals where
  hasCountryCodes : Bool
  hasRanges : Bool
  isBlock : Bool
  strict : Bool
deriving Repr, DecidableEq

/-- The zero value of the package-level flags at process start. -/
def initGlobals : Globals := ⟨false, false, false, false⟩

/-- Models the Go struct `IPFConfig`.  `DBHandler` records whether the
maxminddb handle is non-nil. -/
structure IPFConfig where
  PathScopes : List String
  Rule : String
  BlockPage : String
  CountryCodes : List String
  Ranges : List Range
  DBHandler : Bool
deriving Repr, DecidableEq

/-- The zero value `var config IPFConfig` at the top of `ipfilterParse`. -/
def emptyConfig : IPFConfig := ⟨[], "", "", [], [], false⟩

/-- One directive inside a configuration block, as delivered by the
caddy tokenizer (out of scope here): the `switch c.Val()` cases of
`ipfilterParse`.  The `ok` fields record the answers of the filesystem
collaborators (`maxminddb.Open` succeeding, `os.Stat` finding the
block page). -/
inductive Directive where
  | rule (arg : String)
  | database (path : String) (openOK : Bool)
  | blockpage (path : String) (present : Bool)
  | country (codes : List String)
  | ip (tokens : List String)
  | strict
deriving Repr, DecidableEq

/-- One top-level `ipfilter` block: its path-scope arguments and its
brace-enclosed directives. -/
structure ConfigBlock where
  pathScopes : List String
  directives : List Directive
deriving Repr, DecidableEq

/-- Models the `case "ip"` loop over the remaining tokens: each token
parses to a `Range` appended to `config.Ranges` and sets the
package-level `hasRanges`; the first bad token aborts the load (the
flags already set stay set). -/
def addIPTokens (g : Globals) (cfg : IPFConfig) :
    List String → Globals × Except String IPFConfig
  | [] => (g, Except.ok cfg)
  | t :: ts =>
    match parseIPToken t.data with
    | Except.error e => (g, Except.error e)
    | Except.ok r =>
      addIPTokens { g with hasRanges := true }
        { cfg with Ranges := cfg.Ranges ++ [r] } ts

/-- Models one arm of the directive `switch` in `ipfilterParse`,
mutating the flags and the config under construction. -/
def parseDirective (g : Globals) (cfg : IPFConfig) :
    Directive → Globals × Except String IPFConfig
  | Directive.rule arg =>
    let cfg := { cfg with Rule := arg }
    if arg = "block" then ({ g with isBlock := true }, Except.ok cfg)
    else if arg ≠ "allow" then
      (g, Except.error "ipfilter: Rule should be block or allow")
    else (g, Except.ok cfg)
  | Directive.database path openOK =>
    if openOK then (g, Except.ok { cfg with DBHandler := true })
    else (g, Except.error ("ipfilter: unable to open database: " ++ path))
  | Directive.blockpage path present =>
    if present then (g, Except.ok { cfg with BlockPage := path })
    else (g, Except.error ("ipfilter: No such file: " ++ path))
  | Directive.country codes =>
    if codes.isEmpty then (g, Except.error "ipfilter: ArgErr")
    else ({ g with hasCountryCodes := true },
      Except.ok { cfg with CountryCodes := codes })
  | Directive.ip tokens =>
    if tokens.isEmpty then (g, Except.error "ipfilter: ArgErr")
    else addIPTokens g cfg tokens
  | Directive.strict => ({ g with strict := true }, Except.ok cfg)

/-- Runs the directives of one block in order, stopping at the first
error as the Go `return` statements do. -/
def parseBlockDirectives (g : Globals) (cfg : IPFConfig) :
    List Directive → Globals × Except String IPFConfig
  | [] => (g, Except.ok cfg)
  | d :: ds =>
    match parseDirective g cfg d with
    | (g2, Except.error e) => (g2, Except.error e)
    | (g2, Except.ok cfg2) => parseBlockDirectives g2 cfg2 ds

/-- Models the `for c.Next()` loop of `ipfilterParse`: each block
overwrites `config.PathScopes` (empty scopes are an ArgErr) and then
runs its directives against the same accumulating config and the same
package-level flags. -/
def parseBlocks (g : Globals) (cfg : IPFConfig) :
    List ConfigBlock → Globals × Except String IPFConfig
  | [] => (g, Except.ok cfg)
  | b :: bs =>
    if b.pathScopes.isEmpty then (g, Except.error "ipfilter: ArgErr")
    else
      match parseBlockDirectives g { cfg with PathScopes := b.pathScopes }
          b.directives with
      | (g2, Except.error e) => (g2, Except.error e)
      | (g2, Except.ok cfg2) => parseBlocks g2 cfg2 bs

/-- Models `ipfilterParse`: the block loop followed by the two final
validations, which read the (package-level) flags, not the config. -/
def ipfilterParse (g : Globals) (blocks : List ConfigBlock) :
    Globals × Except String IPFConfig :=
  match parseBlocks g emptyConfig blocks with
  | (g2, Except.error e) => (g2, Except.error e)
  | (g2, Except.ok cfg) =>
    if g2.hasCountryCodes && !cfg.DBHandler then
      (g2, Except.error "ipfilter: Database is required to block/allow by country")
    else if !g2.hasCountryCodes && !g2.hasRanges then
      (g2, Except.error "ipfilter: No IPs or Country codes has been provided")
    else (g2, Except.ok cfg)

/-- An HTTP request as far as the middleware reads it: the URL path,
the `X-Forwarded-For` header value (empty string when absent, as
`Header.Get` reports), and the host part of `RemoteAddr` as returned
by `net.SplitHostPort` (`none` models a split error). -/
structure Request where
  path : String
  xff : String
  peerHost : Option String
deriving Repr, DecidableEq

/-- Result of opening and copying the block page file: the contents on
success, or a failure of `os.Open` or of `io.Copy`. -/
inductive FileResult where
  | ok (contents : String)
  | openErr
  | copyErr
deriving Repr, DecidableEq

/-- The external collaborators read at request time: the stdlib
address parser `net.ParseIP` applied to the client address text, the
maxminddb country lookup (`Except.error` models a lookup error), and
the filesystem serving the block page. -/
structure Collab where
  netParseIP : String → Option Bytes
  lookup : Bytes → Except Unit String
  fs : String → FileResult

/-- Outcome of `ServeHTTP`: delegation to `ipf.Next`, a response
produced by `block` (status and body), or the
`StatusInternalServerError` returns for address or lookup failures. -/
inductive Outcome where
  | next
  | res (status : Nat) (body : String)
  | err500
deriving Repr, DecidableEq

/-- Models `getClientIP`: the forwarded header is used when present
and not in strict mode, otherwise the peer host from `RemoteAddr`;
the chosen text then goes through `net.ParseIP`. -/
def getClientIP (co : Collab) (strict : Bool) (r : Request) :
    Except Unit Bytes :=
  let ipText : Except Unit String :=
    if r.xff ≠ "" && !strict then Except.ok r.xff
    else
      match r.peerHost with
      | none => Except.error ()
      | some h => Except.ok h
  match ipText with
  | Except.error _ => Except.error ()
  | Except.ok s =>
    match co.netParseIP s with
    | none => Except.error ()
    | some ip => Except.ok ip

/-- Models `block`: with a configured block page, open and copy it
(status 200 on success, 500 on either failure); with none, 403. -/
def block (blockPage : String) (fs : String → FileResult) : Nat × String :=
  if blockPage ≠ "" then
    match fs blockPage with
    | FileResult.openErr => (500, "")
    | FileResult.copyErr => (500, "")
    | FileResult.ok c => (200, c)
  else (403, "")

/-- Models the Go struct `Status` tracking the request. -/
structure Status where
  countryMatch : Bool
  inRange : Bool
deriving Repr, DecidableEq

/-- Models `Status.Any`. -/
def Status.Any (s : Status) : Bool := s.countryMatch || s.inRange

/-- Models `middleware.Path.Matches`: a path-prefix test (the caddy
implementation lowercases both sides; case handling is irrelevant to
every claim and not modelled). -/
def pathMatches (path scope : String) : Bool :=
  scope.data.isPrefixOf path.data

/-- Models the second half of the in-scope body of `ServeHTTP` (after
the country check filled `rs.countryMatch`): the range check gated on
the package-level `hasRanges`, then the final verdict from
`Status.Any` and the package-level `isBlock`. -/
def serveTail (g : Globals) (cfg : IPFConfig) (co : Collab)
    (clientIP : Bytes) (rs0 : Status) : Outcome :=
  let rs : Status :=
    if g.hasRanges then
      { rs0 with inRange := cfg.Ranges.any (fun rng => rng.InRange clientIP) }
    else rs0
  if rs.Any then
    if g.isBlock then
      let p := block cfg.BlockPage co.fs
      Outcome.res p.1 p.2
    else Outcome.next
  else
    if g.isBlock then Outcome.next
    else
      let p := block cfg.BlockPage co.fs
      Outcome.res p.1 p.2

/-- Models the body of `ServeHTTP` once a path scope has matched:
client address extraction, then the country check (gated on the
package-level `hasCountryCodes`, with a lookup error returning 500)
filling `rs.countryMatch`, then `serveTail`. -/
def serveMatched (g : Globals) (cfg : IPFConfig) (co : Collab)
    (r : Request) : Outcome :=
  match getClientIP co g.strict r with
  | Except.error _ => Outcome.err500
  | Except.ok clientIP =>
    if g.hasCountryCodes then
      match co.lookup clientIP with
      | Except.error _ => Outcome.err500
      | Except.ok clientCountry =>
        serveTail g cfg co clientIP
          ⟨cfg.CountryCodes.any (fun c => clientCountry = c), false⟩
    else serveTail g cfg co clientIP ⟨false, false⟩

/-- Models `ServeHTTP`: the first matching path scope triggers the
evaluation; with no matching scope the request passes through. -/
def ServeHTTP (g : Globals) (cfg : IPFConfig) (co : Collab)
    (r : Request) : Outcome :=
  match cfg.PathScopes.find? (fun scope => pathMatches r.path scope) with
  | some _ => serveMatched g cfg co r
  | none => Outcome.next

/-- A concrete instance of the `net.ParseIP` collaborator covering the
IPv4 dotted-quad inputs (see `parseV4Quad`), usable for closed
evaluations of `ServeHTTP`. -/
def netParseIP4 (s : String) : Option Bytes :=
  match parseV4Quad s.data with
  | some (a, b, c, d) => some (v4mapped a b c d)
  | none => none

/-- A concrete collaborator bundle for closed evaluations: IPv4-only
address parsing, a lookup that always answers the empty country code,
and a filesystem on which every open fails. -/
def co0 : Collab :=
  ⟨netParseIP4, fun _ => Except.ok "", fun _ => FileResult.openErr⟩

/-- A collaborator bundle whose filesystem serves a fixed block page,
for closed evaluations of the deny-with-page path. -/
def coPage : Collab :=
  ⟨netParseIP4, fun _ => Except.ok "", fun _ => FileResult.ok "BLOCKED"⟩

/-- Flag monotonicity: every flag set in `g` is still set in `g2`.
`ipfilterParse` only ever turns the package-level flags on, never off. -/
def flagsMono (g g2 : Globals) : Prop :=
  (g.hasCountryCodes = true → g2.hasCountryCodes = true) ∧
    (g.hasRanges = true → g2.hasRanges = true) ∧
    (g.isBlock = true → g2.isBlock = true) ∧
    (g.strict = true → g2.strict = true)

/-! ## Helper lemmas -/

set_option maxRecDepth 40000

theorem splitChar_no_sep {sep : Char} {l : List Char} (h : sep ∉ l) :
    splitChar sep l = [l] := by
  induction l with
  | nil => rfl
  | cons c rest ih =>
    have hc : ¬ c = sep := fun e => h (by simp [e])
    have hr : sep ∉ rest := fun e => h (List.mem_cons_of_mem _ e)
    simp [splitChar, hc, ih hr]

theorem splitChar_append {sep : Char} {p q : List Char} (h : sep ∉ p) :
    splitChar sep (p ++ sep :: q) = p :: splitChar sep q := by
  induction p with
  | nil => simp [splitChar]
  | cons c rest ih =>
    have hc : ¬ c = sep := fun e => h (by simp [e])
    have hr : sep ∉ rest := fun e => h (List.mem_cons_of_mem _ e)
    simp [splitChar, hc, ih hr]

theorem joinChar_cons {sep : Char} {p : List Char} {ps : List (List Char)}
    (h : ps ≠ []) : joinChar sep (p :: ps) = p ++ sep :: joinChar sep ps := by
  cases ps with
  | nil => exact absurd rfl h
  | cons q qs => rfl

theorem not_mem_joinChar {sep c : Char} {parts : List (List Char)}
    (hc : c ≠ sep) (h : ∀ p ∈ parts, c ∉ p) : c ∉ joinChar sep parts := by
  induction parts with
  | nil => simp [joinChar]
  | cons p ps ih =>
    cases ps with
    | nil => simpa [joinChar] using h p (by simp)
    | cons q qs =>
      rw [joinChar_cons (by simp)]
      intro hmem
      rcases List.mem_append.mp hmem with hp | hq
      · exact h p (by simp) hp
      · rcases List.mem_cons.mp hq with he | ht
        · exact hc he
        · exact ih (fun r hr => h r (by simp [hr])) ht

theorem splitChar_join {sep : Char} {parts : List (List Char)}
    (hne : parts ≠ []) (h : ∀ p ∈ parts, sep ∉ p) :
    splitChar sep (joinChar sep parts) = parts := by
  induction parts with
  | nil => exact absurd rfl hne
  | cons p ps ih =>
    cases ps with
    | nil => exact splitChar_no_sep (h p (by simp))
    | cons q qs =>
      rw [joinChar_cons (by simp), splitChar_append (h p (by simp))]
      rw [ih (by simp) (fun r hr => h r (by simp [hr]))]

theorem octet_roundtrip : ∀ n < 256, parseOctet (natToChars n) = some n ∧
    (natToChars n).all isDigit = true ∧ natToChars n ≠ [] := by decide

theorem not_mem_of_all_digits {s : List Char} (h : s.all isDigit = true)
    {c : Char} (hc : isDigit c = false) : c ∉ s := by
  intro hmem
  have := List.all_eq_true.mp h c hmem
  rw [hc] at this
  exact Bool.noConfusion this

theorem dot_not_digit : isDigit ('.') = false := by decide

theorem dash_not_digit : isDigit ('-') = false := by decide

/-- Validity of one textual octet: non-empty, all decimal digits,
value at most 255. -/
def validOctet (s : List Char) : Prop :=
  s ≠ [] ∧ s.all isDigit = true ∧ decVal s ≤ 255

instance (s : List Char) : Decidable (validOctet s) := by
  unfold validOctet; infer_instance

theorem parseOctet_of_valid {s : List Char} (h : validOctet s) :
    parseOctet s = some (decVal s) := by
  unfold parseOctet
  rcases h with ⟨h1, h2, h3⟩
  rw [if_pos ⟨h1, h2, h3⟩]

theorem parseOctet_some {s : List Char} {n : Nat}
    (h : parseOctet s = some n) :
    validOctet s ∧ n = decVal s ∧ n ≤ 255 := by
  unfold parseOctet at h
  split at h
  · rename_i hv
    rcases hv with ⟨h1, h2, h3⟩
    have := Option.some.inj h
    exact ⟨⟨h1, h2, h3⟩, this.symm, this ▸ h3⟩
  · exact absurd h (by simp)

theorem decVal_natToChars {n : Nat} (h : n ≤ 255) :
    decVal (natToChars n) = n := by
  have h1 := (octet_roundtrip n (by omega)).1
  have h2 := parseOctet_some h1
  omega

theorem validOctet_natToChars {n : Nat} (h : n ≤ 255) :
    validOctet (natToChars n) :=
  (parseOctet_some ((octet_roundtrip n (by omega)).1)).1

theorem valid_no_dot {s : List Char} (h : validOctet s) : ('.') ∉ s :=
  not_mem_of_all_digits h.2.1 dot_not_digit

theorem valid_no_dash {s : List Char} (h : validOctet s) : ('-') ∉ s :=
  not_mem_of_all_digits h.2.1 dash_not_digit

theorem parseV4Quad_join {f0 f1 f2 f3 : List Char} (h0 : validOctet f0)
    (h1 : validOctet f1) (h2 : validOctet f2) (h3 : validOctet f3) :
    parseV4Quad (joinChar ('.') [f0, f1, f2, f3]) =
      some (decVal f0, decVal f1, decVal f2, decVal f3) := by
  have hsplit : splitChar ('.') (joinChar ('.') [f0, f1, f2, f3]) =
      [f0, f1, f2, f3] := by
    refine splitChar_join (by simp) ?_
    intro p hp
    simp only [List.mem_cons, List.not_mem_nil, or_false] at hp
    rcases hp with rfl | rfl | rfl | rfl
    · exact valid_no_dot h0
    · exact valid_no_dot h1
    · exact valid_no_dot h2
    · exact valid_no_dot h3
  simp [parseV4Quad, hsplit, parseOctet_of_valid h0, parseOctet_of_valid h1,
    parseOctet_of_valid h2, parseOctet_of_valid h3]

theorem parseV4Quad_some {s : List Char} {a b c d : Nat}
    (h : parseV4Quad s = some (a, b, c, d)) :
    a ≤ 255 ∧ b ≤ 255 ∧ c ≤ 255 ∧ d ≤ 255 := by
  unfold parseV4Quad at h
  split at h
  · split at h
    · rename_i ho0 ho1 ho2 ho3
      simp only [Option.some.injEq, Prod.mk.injEq] at h
      obtain ⟨ea, eb, ec, ed⟩ := h
      subst ea; subst eb; subst ec; subst ed
      exact ⟨(parseOctet_some ho0).2.2, (parseOctet_some ho1).2.2,
        (parseOctet_some ho2).2.2, (parseOctet_some ho3).2.2⟩
    · exact absurd h (by simp)
  · exact absurd h (by simp)

theorem bytesCompare_v4mapped {w x y z a b c d : Nat} :
    bytesCompare (v4mapped w x y z) (v4mapped a b c d) =
      bytesCompare [w, x, y, z] [a, b, c, d] := rfl

theorem quad_ge_iff {w x y z a b c d : Nat} (hw : w ≤ 255) (hx : x ≤ 255)
    (hy : y ≤ 255) (hz : z ≤ 255) (ha : a ≤ 255) (hb : b ≤ 255)
    (hc : c ≤ 255) (hd : d ≤ 255) :
    (bytesCompare [w, x, y, z] [a, b, c, d] != Ordering.lt) = true ↔
      ipNum a b c d ≤ ipNum w x y z := by
  simp only [bytesCompare, ipNum]
  split_ifs <;> first
    | exact iff_of_false (by decide) (by omega)
    | exact iff_of_true (by decide) (by omega)

theorem quad_le_iff {w x y z a b c d : Nat} (hw : w ≤ 255) (hx : x ≤ 255)
    (hy : y ≤ 255) (hz : z ≤ 255) (ha : a ≤ 255) (hb : b ≤ 255)
    (hc : c ≤ 255) (hd : d ≤ 255) :
    (bytesCompare [w, x, y, z] [a, b, c, d] != Ordering.gt) = true ↔
      ipNum w x y z ≤ ipNum a b c d := by
  simp only [bytesCompare, ipNum]
  split_ifs <;> first
    | exact iff_of_false (by decide) (by omega)
    | exact iff_of_true (by decide) (by omega)

theorem InRange_v4_iff {a b c d e f g h w x y z : Nat}
    (ha : a ≤ 255) (hb : b ≤ 255) (hc : c ≤ 255) (hd : d ≤ 255)
    (he : e ≤ 255) (hf : f ≤ 255) (hg : g ≤ 255) (hh : h ≤ 255)
    (hw : w ≤ 255) (hx : x ≤ 255) (hy : y ≤ 255) (hz : z ≤ 255) :
    (Range.mk (v4mapped a b c d) (v4mapped e f g h)).InRange
        (v4mapped w x y z) = true ↔
      ipNum a b c d ≤ ipNum w x y z ∧ ipNum w x y z ≤ ipNum e f g h := by
  unfold Range.InRange
  rw [Bool.and_eq_true]
  rw [show (Range.mk (v4mapped a b c d) (v4mapped e f g h)).start =
    v4mapped a b c d from rfl]
  rw [show (Range.mk (v4mapped a b c d) (v4mapped e f g h)).stop =
    v4mapped e f g h from rfl]
  rw [bytesCompare_v4mapped, bytesCompare_v4mapped]
  rw [quad_ge_iff hw hx hy hz ha hb hc hd,
    quad_le_iff hw hx hy hz he hf hg hh]

theorem decVal_zero : decVal [('0')] = 0 := by decide

theorem decVal_255 : decVal [('2'), ('5'), ('5')] = 255 := by decide

theorem validOctet_zero : validOctet [('0')] := by decide

theorem validOctet_255 : validOctet [('2'), ('5'), ('5')] := by decide

theorem parseIPToken_ok_shape {t : List Char} {r : Range}
    (h : parseIPToken t = Except.ok r) :
    ∃ a b c d e f g k, a ≤ 255 ∧ b ≤ 255 ∧ c ≤ 255 ∧ d ≤ 255 ∧
      e ≤ 255 ∧ f ≤ 255 ∧ g ≤ 255 ∧ k ≤ 255 ∧
      r = Range.mk (v4mapped a b c d) (v4mapped e f g k) := by
  unfold parseIPToken at h
  dsimp only at h
  split at h
  · -- shorthand branch
    split at h
    · rename_i hq1 hq2
      obtain ⟨b1, b2, b3, b4⟩ := parseV4Quad_some hq1
      obtain ⟨c1, c2, c3, c4⟩ := parseV4Quad_some hq2
      exact ⟨_, _, _, _, _, _, _, _, b1, b2, b3, b4, c1, c2, c3, c4,
        (Except.ok.inj h).symm⟩
    · exact absurd h (by simp)
  · split at h
    · -- dash branch
      split at h
      · exact absurd h (by simp)
      · rename_i hq1
        split at h
        · exact absurd h (by simp)
        · rename_i hq2
          obtain ⟨b1, b2, b3, b4⟩ := parseV4Quad_some hq1
          obtain ⟨c1, c2, c3, c4⟩ := parseV4Quad_some hq2
          exact ⟨_, _, _, _, _, _, _, _, b1, b2, b3, b4, c1, c2, c3, c4,
            (Except.ok.inj h).symm⟩
    · -- single branch
      split at h
      · exact absurd h (by simp)
      · rename_i hq
        obtain ⟨b1, b2, b3, b4⟩ := parseV4Quad_some hq
        exact ⟨_, _, _, _, _, _, _, _, b1, b2, b3, b4, b1, b2, b3, b4,
          (Except.ok.inj h).symm⟩

theorem dot_notin_append_dash {f3 f4 : List Char} (h3 : ('.') ∉ f3)
    (h4 : ('.') ∉ f4) : ('.') ∉ f3 ++ ('-') :: f4 := by
  intro hmem
  rcases List.mem_append.mp hmem with hp | hq
  · exact h3 hp
  · rcases List.mem_cons.mp hq with he | ht
    · exact absurd he (by decide)
    · exact h4 ht

theorem splitChar_dot_dash_token {f0 f1 f2 f3 f4 : List Char}
    (h0 : validOctet f0) (h1 : validOctet f1) (h2 : validOctet f2)
    (h3 : validOctet f3) (h4 : validOctet f4) :
    splitChar ('.') (joinChar ('.') [f0, f1, f2, f3] ++ ('-') :: f4) =
      [f0, f1, f2, f3 ++ ('-') :: f4] := by
  have e1 : joinChar ('.') [f0, f1, f2, f3] ++ ('-') :: f4 =
      joinChar ('.') [f0, f1, f2, f3 ++ ('-') :: f4] := by
    show (f0 ++ ('.') :: (f1 ++ ('.') :: (f2 ++ ('.') :: f3))) ++ ('-') :: f4 = _
    simp [joinChar, List.append_assoc]
  rw [e1]
  refine splitChar_join (by simp) ?_
  intro p hp
  simp only [List.mem_cons, List.not_mem_nil, or_false] at hp
  rcases hp with rfl | rfl | rfl | rfl
  · exact valid_no_dot h0
  · exact valid_no_dot h1
  · exact valid_no_dot h2
  · exact dot_notin_append_dash (valid_no_dot h3) (valid_no_dot h4)

theorem splitChar_dash_token {f0 f1 f2 f3 f4 : List Char}
    (h0 : validOctet f0) (h1 : validOctet f1) (h2 : validOctet f2)
    (h3 : validOctet f3) (h4 : validOctet f4) :
    splitChar ('-') (joinChar ('.') [f0, f1, f2, f3] ++ ('-') :: f4) =
      [joinChar ('.') [f0, f1, f2, f3], f4] := by
  rw [splitChar_append ?_, splitChar_no_sep (valid_no_dash h4)]
  refine not_mem_joinChar (by decide) ?_
  intro p hp
  simp only [List.mem_cons, List.not_mem_nil, or_false] at hp
  rcases hp with rfl | rfl | rfl | rfl
  · exact valid_no_dash h0
  · exact valid_no_dash h1
  · exact valid_no_dash h2
  · exact valid_no_dash h3

theorem fields_of_ip4String {a b c d : Nat} (ha : a ≤ 255) (hb : b ≤ 255)
    (hc : c ≤ 255) (hd : d ≤ 255) :
    splitChar ('.') (ip4String a b c d) =
      [natToChars a, natToChars b, natToChars c, natToChars d] := by
  unfold ip4String
  refine splitChar_join (by simp) ?_
  intro p hp
  simp only [List.mem_cons, List.not_mem_nil, or_false] at hp
  rcases hp with rfl | rfl | rfl | rfl
  · exact valid_no_dot (validOctet_natToChars ha)
  · exact valid_no_dot (validOctet_natToChars hb)
  · exact valid_no_dot (validOctet_natToChars hc)
  · exact valid_no_dot (validOctet_natToChars hd)

theorem parseIPToken_dash {f0 f1 f2 f3 f4 : List Char}
    (h0 : validOctet f0) (h1 : validOctet f1) (h2 : validOctet f2)
    (h3 : validOctet f3) (h4 : validOctet f4) :
    parseIPToken (joinChar ('.') [f0, f1, f2, f3] ++ ('-') :: f4) =
      Except.ok (Range.mk
        (v4mapped (decVal f0) (decVal f1) (decVal f2) (decVal f3))
        (v4mapped (decVal f0) (decVal f1) (decVal f2) (decVal f4))) := by
  have b0 := (parseOctet_some (parseOctet_of_valid h0)).2.2
  have b1 := (parseOctet_some (parseOctet_of_valid h1)).2.2
  have b2 := (parseOctet_some (parseOctet_of_valid h2)).2.2
  have b3 := (parseOctet_some (parseOctet_of_valid h3)).2.2
  have b4 := (parseOctet_some (parseOctet_of_valid h4)).2.2
  unfold parseIPToken
  dsimp only
  rw [splitChar_dot_dash_token h0 h1 h2 h3 h4]
  rw [if_neg (by simp)]
  rw [splitChar_dash_token h0 h1 h2 h3 h4]
  rw [if_pos (by simp)]
  have hhead : ([joinChar ('.') [f0, f1, f2, f3], f4].headD [] : List Char) =
      joinChar ('.') [f0, f1, f2, f3] := rfl
  rw [hhead, parseV4Quad_join h0 h1 h2 h3]
  dsimp only
  rw [fields_of_ip4String b0 b1 b2 b3]
  have hset : ([natToChars (decVal f0), natToChars (decVal f1),
      natToChars (decVal f2), natToChars (decVal f3)].set 3
        ([joinChar ('.') [f0, f1, f2, f3], f4].getD 1 [])) =
      [natToChars (decVal f0), natToChars (decVal f1),
        natToChars (decVal f2), f4] := rfl
  rw [hset]
  rw [parseV4Quad_join (validOctet_natToChars b0) (validOctet_natToChars b1)
    (validOctet_natToChars b2) h4]
  dsimp only
  rw [decVal_natToChars b0, decVal_natToChars b1, decVal_natToChars b2]

theorem parseIPToken_single {f0 f1 f2 f3 : List Char}
    (h0 : validOctet f0) (h1 : validOctet f1) (h2 : validOctet f2)
    (h3 : validOctet f3) :
    parseIPToken (joinChar ('.') [f0, f1, f2, f3]) =
      Except.ok (Range.mk
        (v4mapped (decVal f0) (decVal f1) (decVal f2) (decVal f3))
        (v4mapped (decVal f0) (decVal f1) (decVal f2) (decVal f3))) := by
  have hsplit : splitChar ('.') (joinChar ('.') [f0, f1, f2, f3]) =
      [f0, f1, f2, f3] := by
    refine splitChar_join (by simp) ?_
    intro p hp
    simp only [List.mem_cons, List.not_mem_nil, or_false] at hp
    rcases hp with rfl | rfl | rfl | rfl
    · exact valid_no_dot h0
    · exact valid_no_dot h1
    · exact valid_no_dot h2
    · exact valid_no_dot h3
  have hdash : splitChar ('-') (joinChar ('.') [f0, f1, f2, f3]) =
      [joinChar ('.') [f0, f1, f2, f3]] := by
    refine splitChar_no_sep ?_
    refine not_mem_joinChar (by decide) ?_
    intro p hp
    simp only [List.mem_cons, List.not_mem_nil, or_false] at hp
    rcases hp with rfl | rfl | rfl | rfl
    · exact valid_no_dash h0
    · exact valid_no_dash h1
    · exact valid_no_dash h2
    · exact valid_no_dash h3
  unfold parseIPToken
  dsimp only
  rw [hsplit, if_neg (by simp), hdash, if_neg (by simp)]
  rw [parseV4Quad_join h0 h1 h2 h3]

theorem parseIPToken_short1 {f0 : List Char} (h0 : validOctet f0) :
    parseIPToken f0 =
      Except.ok (Range.mk (v4mapped (decVal f0) 0 0 0)
        (v4mapped (decVal f0) 255 255 255)) := by
  unfold parseIPToken
  dsimp only
  rw [splitChar_no_sep (valid_no_dot h0), if_pos (by simp)]
  have e1 : ([f0] ++ List.replicate (4 - [f0].length) [('0')]) =
      [f0, [('0')], [('0')], [('0')]] := rfl
  have e2 : ([f0] ++ List.replicate (4 - [f0].length) [('2'), ('5'), ('5')]) =
      [f0, [('2'), ('5'), ('5')], [('2'), ('5'), ('5')], [('2'), ('5'), ('5')]] := rfl
  rw [e1, e2]
  rw [parseV4Quad_join h0 validOctet_zero validOctet_zero validOctet_zero,
    parseV4Quad_join h0 validOctet_255 validOctet_255 validOctet_255]
  rw [decVal_zero, decVal_255]

theorem parseIPToken_short2 {f0 f1 : List Char} (h0 : validOctet f0)
    (h1 : validOctet f1) :
    parseIPToken (joinChar ('.') [f0, f1]) =
      Except.ok (Range.mk (v4mapped (decVal f0) (decVal f1) 0 0)
        (v4mapped (decVal f0) (decVal f1) 255 255)) := by
  have hsplit : splitChar ('.') (joinChar ('.') [f0, f1]) = [f0, f1] := by
    refine splitChar_join (by simp) ?_
    intro p hp
    simp only [List.mem_cons, List.not_mem_nil, or_false] at hp
    rcases hp with rfl | rfl
    · exact valid_no_dot h0
    · exact valid_no_dot h1
  unfold parseIPToken
  dsimp only
  rw [hsplit, if_pos (by simp)]
  have e1 : ([f0, f1] ++ List.replicate (4 - [f0, f1].length) [('0')]) =
      [f0, f1, [('0')], [('0')]] := rfl
  have e2 : ([f0, f1] ++ List.replicate (4 - [f0, f1].length) [('2'), ('5'), ('5')]) =
      [f0, f1, [('2'), ('5'), ('5')], [('2'), ('5'), ('5')]] := rfl
  rw [e1, e2]
  rw [parseV4Quad_join h0 h1 validOctet_zero validOctet_zero,
    parseV4Quad_join h0 h1 validOctet_255 validOctet_255]
  rw [decVal_zero, decVal_255]

theorem parseIPToken_short3 {f0 f1 f2 : List Char} (h0 : validOctet f0)
    (h1 : validOctet f1) (h2 : validOctet f2) :
    parseIPToken (joinChar ('.') [f0, f1, f2]) =
      Except.ok (Range.mk (v4mapped (decVal f0) (decVal f1) (decVal f2) 0)
        (v4mapped (decVal f0) (decVal f1) (decVal f2) 255)) := by
  have hsplit : splitChar ('.') (joinChar ('.') [f0, f1, f2]) = [f0, f1, f2] := by
    refine splitChar_join (by simp) ?_
    intro p hp
    simp only [List.mem_cons, List.not_mem_nil, or_false] at hp
    rcases hp with rfl | rfl | rfl
    · exact valid_no_dot h0
    · exact valid_no_dot h1
    · exact valid_no_dot h2
  unfold parseIPToken
  dsimp only
  rw [hsplit, if_pos (by simp)]
  have e1 : ([f0, f1, f2] ++ List.replicate (4 - [f0, f1, f2].length) [('0')]) =
      [f0, f1, f2, [('0')]] := rfl
  have e2 : ([f0, f1, f2] ++ List.replicate (4 - [f0, f1, f2].length) [('2'), ('5'), ('5')]) =
      [f0, f1, f2, [('2'), ('5'), ('5')]] := rfl
  rw [e1, e2]
  rw [parseV4Quad_join h0 h1 h2 validOctet_zero,
    parseV4Quad_join h0 h1 h2 validOctet_255]
  rw [decVal_zero, decVal_255]

/-! ## Claim theorems -/

set_option maxRecDepth 100000

/-- C1.  Range membership exactness: every `Range` produced by an `ip`
token parse has v4-mapped endpoints, and an IPv4 address is a member
iff it lies numerically between them (big-endian byte comparison);
every valid dash-range token `a.b.c.d-e` yields exactly the endpoints
`a.b.c.d` and `a.b.c.e`; the concrete input `10.0.0.1-150` contains
`10.0.0.1` and `10.0.0.150` but not `10.0.0.151`; a single-address
token yields a range containing exactly that address. -/
theorem C1_range_membership_exact :
    (∀ t r, parseIPToken t = Except.ok r →
      ∃ a b c d e f g k, a ≤ 255 ∧ b ≤ 255 ∧ c ≤ 255 ∧ d ≤ 255 ∧
        e ≤ 255 ∧ f ≤ 255 ∧ g ≤ 255 ∧ k ≤ 255 ∧
        r = Range.mk (v4mapped a b c d) (v4mapped e f g k) ∧
        ∀ w x y z, w ≤ 255 → x ≤ 255 → y ≤ 255 → z ≤ 255 →
          (r.InRange (v4mapped w x y z) = true ↔
            ipNum a b c d ≤ ipNum w x y z ∧ ipNum w x y z ≤ ipNum e f g k)) ∧
    (∀ f0 f1 f2 f3 f4, validOctet f0 → validOctet f1 → validOctet f2 →
      validOctet f3 → validOctet f4 →
      parseIPToken (joinChar ('.') [f0, f1, f2, f3] ++ ('-') :: f4) =
        Except.ok (Range.mk
          (v4mapped (decVal f0) (decVal f1) (decVal f2) (decVal f3))
          (v4mapped (decVal f0) (decVal f1) (decVal f2) (decVal f4)))) ∧
    (∀ f0 f1 f2 f3, validOctet f0 → validOctet f1 → validOctet f2 →
      validOctet f3 →
      parseIPToken (joinChar ('.') [f0, f1, f2, f3]) =
        Except.ok (Range.mk
          (v4mapped (decVal f0) (decVal f1) (decVal f2) (decVal f3))
          (v4mapped (decVal f0) (decVal f1) (decVal f2) (decVal f3))) ∧
      ∀ w x y z, w ≤ 255 → x ≤ 255 → y ≤ 255 → z ≤ 255 →
        ((Range.mk (v4mapped (decVal f0) (decVal f1) (decVal f2) (decVal f3))
            (v4mapped (decVal f0) (decVal f1) (decVal f2) (decVal f3))).InRange
              (v4mapped w x y z) = true ↔
          w = decVal f0 ∧ x = decVal f1 ∧ y = decVal f2 ∧ z = decVal f3)) ∧
    (parseIPToken (("10.0.0.1-150").data) =
        Except.ok (Range.mk (v4mapped 10 0 0 1) (v4mapped 10 0 0 150)) ∧
      (Range.mk (v4mapped 10 0 0 1) (v4mapped 10 0 0 150)).InRange
        (v4mapped 10 0 0 1) = true ∧
      (Range.mk (v4mapped 10 0 0 1) (v4mapped 10 0 0 150)).InRange
        (v4mapped 10 0 0 150) = true ∧
      (Range.mk (v4mapped 10 0 0 1) (v4mapped 10 0 0 150)).InRange
        (v4mapped 10 0 0 151) = false) := by
  refine ⟨?_, ?_, ?_, ?_, ?_, ?_, ?_⟩
  · intro t r h
    obtain ⟨a, b, c, d, e, f, g, k, b1, b2, b3, b4, c1, c2, c3, c4, hr⟩ :=
      parseIPToken_ok_shape h
    refine ⟨a, b, c, d, e, f, g, k, b1, b2, b3, b4, c1, c2, c3, c4, hr, ?_⟩
    intro w x y z hw hx hy hz
    rw [hr]
    exact InRange_v4_iff b1 b2 b3 b4 c1 c2 c3 c4 hw hx hy hz
  · intro f0 f1 f2 f3 f4 h0 h1 h2 h3 h4
    exact parseIPToken_dash h0 h1 h2 h3 h4
  · intro f0 f1 f2 f3 h0 h1 h2 h3
    refine ⟨parseIPToken_single h0 h1 h2 h3, ?_⟩
    intro w x y z hw hx hy hz
    have b0 := (parseOctet_some (parseOctet_of_valid h0)).2.2
    have b1 := (parseOctet_some (parseOctet_of_valid h1)).2.2
    have b2 := (parseOctet_some (parseOctet_of_valid h2)).2.2
    have b3 := (parseOctet_some (parseOctet_of_valid h3)).2.2
    rw [InRange_v4_iff b0 b1 b2 b3 b0 b1 b2 b3 hw hx hy hz]
    unfold ipNum
    omega
  · rfl
  · decide
  · decide
  · decide

/-- Witness for C1 at the concrete dash-range token `10.0.0.1-150`. -/
theorem C1_witness :
    parseIPToken (("10.0.0.1-150").data) =
      Except.ok (Range.mk (v4mapped 10 0 0 1) (v4mapped 10 0 0 150)) := by
  have h := C1_range_membership_exact.2.1 [('1'), ('0')] [('0')] [('0')] [('1')]
    [('1'), ('5'), ('0')] (by decide) (by decide) (by decide) (by decide) (by decide)
  exact h

/-- C7.  Dotted-shorthand expansion: a token of k < 4 textually valid
octets loads as the range from the octets padded with zero octets to
the octets padded with 255 octets, and an IPv4 address is contained
iff its first k octets equal the given ones (the 8k-bit prefix
block); each parsed token is appended to the rule ranges with the
`hasRanges` flag set. -/
theorem C7_shorthand_prefix_block :
    (∀ f0, validOctet f0 →
      parseIPToken f0 = Except.ok (Range.mk (v4mapped (decVal f0) 0 0 0)
        (v4mapped (decVal f0) 255 255 255)) ∧
      ∀ w x y z, w ≤ 255 → x ≤ 255 → y ≤ 255 → z ≤ 255 →
        ((Range.mk (v4mapped (decVal f0) 0 0 0)
          (v4mapped (decVal f0) 255 255 255)).InRange (v4mapped w x y z) = true ↔
          w = decVal f0)) ∧
    (∀ f0 f1, validOctet f0 → validOctet f1 →
      parseIPToken (joinChar ('.') [f0, f1]) =
        Except.ok (Range.mk (v4mapped (decVal f0) (decVal f1) 0 0)
          (v4mapped (decVal f0) (decVal f1) 255 255)) ∧
      ∀ w x y z, w ≤ 255 → x ≤ 255 → y ≤ 255 → z ≤ 255 →
        ((Range.mk (v4mapped (decVal f0) (decVal f1) 0 0)
          (v4mapped (decVal f0) (decVal f1) 255 255)).InRange
            (v4mapped w x y z) = true ↔
          w = decVal f0 ∧ x = decVal f1)) ∧
    (∀ f0 f1 f2, validOctet f0 → validOctet f1 → validOctet f2 →
      parseIPToken (joinChar ('.') [f0, f1, f2]) =
        Except.ok (Range.mk (v4mapped (decVal f0) (decVal f1) (decVal f2) 0)
          (v4mapped (decVal f0) (decVal f1) (decVal f2) 255)) ∧
      ∀ w x y z, w ≤ 255 → x ≤ 255 → y ≤ 255 → z ≤ 255 →
        ((Range.mk (v4mapped (decVal f0) (decVal f1) (decVal f2) 0)
          (v4mapped (decVal f0) (decVal f1) (decVal f2) 255)).InRange
            (v4mapped w x y z) = true ↔
          w = decVal f0 ∧ x = decVal f1 ∧ y = decVal f2)) ∧
    (∀ g cfg t r, parseIPToken (String.data t) = Except.ok r →
      addIPTokens g cfg [t] = ({ g with hasRanges := true },
        Except.ok { cfg with Ranges := cfg.Ranges ++ [r] })) := by
  refine ⟨?_, ?_, ?_, ?_⟩
  · intro f0 h0
    have b0 := (parseOctet_some (parseOctet_of_valid h0)).2.2
    refine ⟨parseIPToken_short1 h0, ?_⟩
    intro w x y z hw hx hy hz
    rw [InRange_v4_iff b0 (by omega) (by omega) (by omega) b0 (by omega)
      (by omega) (by omega) hw hx hy hz]
    unfold ipNum
    omega
  · intro f0 f1 h0 h1
    have b0 := (parseOctet_some (parseOctet_of_valid h0)).2.2
    have b1 := (parseOctet_some (parseOctet_of_valid h1)).2.2
    refine ⟨parseIPToken_short2 h0 h1, ?_⟩
    intro w x y z hw hx hy hz
    rw [InRange_v4_iff b0 b1 (by omega) (by omega) b0 b1 (by omega) (by omega)
      hw hx hy hz]
    unfold ipNum
    omega
  · intro f0 f1 f2 h0 h1 h2
    have b0 := (parseOctet_some (parseOctet_of_valid h0)).2.2
    have b1 := (parseOctet_some (parseOctet_of_valid h1)).2.2
    have b2 := (parseOctet_some (parseOctet_of_valid h2)).2.2
    refine ⟨parseIPToken_short3 h0 h1 h2, ?_⟩
    intro w x y z hw hx hy hz
    rw [InRange_v4_iff b0 b1 b2 (by omega) b0 b1 b2 (by omega) hw hx hy hz]
    unfold ipNum
    omega
  · intro g cfg t r h
    unfold addIPTokens
    rw [h]
    rfl

/-- Witness for C7 at the concrete shorthand token `192.168`. -/
theorem C7_witness :
    parseIPToken (("192.168").data) =
      Except.ok (Range.mk (v4mapped 192 168 0 0) (v4mapped 192 168 255 255)) ∧
    (Range.mk (v4mapped 192 168 0 0) (v4mapped 192 168 255 255)).InRange
      (v4mapped 192 168 7 9) = true := by
  have h := C7_shorthand_prefix_block.2.1 [('1'), ('9'), ('2')]
    [('1'), ('6'), ('8')] (by decide) (by decide)
  exact ⟨h.1, by
    have h2 := (h.2 192 168 7 9 (by omega) (by omega) (by omega) (by omega)).mpr
      ⟨by decide, by decide⟩
    exact h2⟩

/-- C2.  Code bug witness: with two rule blocks (`rule block` on `/`,
then `rule allow` on `/allowed`) the parse merges them into one config
whose executed polarity comes from the sticky package-level `isBlock`
flag, so a request from the listed address to `/allowed` is denied
with 403; the later allow rule does not win. -/
theorem C2_multiple_rules_flag_override :
    ipfilterParse initGlobals
        [⟨["/"], [Directive.rule ("block"), Directive.ip [("192.168.1.10")]]⟩,
         ⟨["/allowed"], [Directive.rule ("allow"), Directive.ip [("192.168.1.10")]]⟩] =
      (⟨false, true, true, false⟩, Except.ok
        ⟨["/allowed"], "allow", "", [],
          [Range.mk (v4mapped 192 168 1 10) (v4mapped 192 168 1 10),
           Range.mk (v4mapped 192 168 1 10) (v4mapped 192 168 1 10)], false⟩) ∧
    ServeHTTP ⟨false, true, true, false⟩
        ⟨["/allowed"], "allow", "", [],
          [Range.mk (v4mapped 192 168 1 10) (v4mapped 192 168 1 10),
           Range.mk (v4mapped 192 168 1 10) (v4mapped 192 168 1 10)], false⟩
        co0 ⟨"/allowed", "", some ("192.168.1.10")⟩ = Outcome.res 403 "" := by
  exact ⟨rfl, rfl⟩

/-- C3.  Code bug witness: an IPv6 literal and a CIDR literal in the
`ip` directive are rejected at load with the IPv4 parse error, so the
load fails instead of accepting them. -/
theorem C3_ipv6_cidr_rejected :
    parseIPToken (("2001:db8::1").data) = Except.error parseErrMsg ∧
    parseIPToken (("10.0.0.0/8").data) = Except.error parseErrMsg ∧
    ipfilterParse initGlobals
        [⟨["/"], [Directive.rule ("block"), Directive.ip [("2001:db8::1")]]⟩] =
      (⟨false, false, true, false⟩, Except.error parseErrMsg) ∧
    ipfilterParse initGlobals
        [⟨["/"], [Directive.rule ("block"), Directive.ip [("10.0.0.0/8")]]⟩] =
      (⟨false, false, true, false⟩, Except.error parseErrMsg) := by
  exact ⟨rfl, rfl, rfl, rfl⟩

/-- C4 counterexample: the inverted dash-range token `10.0.0.150-1`
is accepted at load, installing the reversed range, contrary to the
claim that the load fails. -/
theorem C4_inverted_range_counterexample :
    parseIPToken (("10.0.0.150-1").data) =
      Except.ok (Range.mk (v4mapped 10 0 0 150) (v4mapped 10 0 0 1)) ∧
    ipfilterParse initGlobals
        [⟨["/"], [Directive.rule ("block"), Directive.ip [("10.0.0.150-1")]]⟩] =
      (⟨false, true, true, false⟩, Except.ok
        ⟨["/"], "block", "", [],
          [Range.mk (v4mapped 10 0 0 150) (v4mapped 10 0 0 1)], false⟩) := by
  exact ⟨rfl, rfl⟩

/-- C4 amended: an inverted dash-range token (end octet numerically
below the start octet) is accepted at configuration load without any
error, and the installed range contains no IPv4 address. -/
theorem C4_inverted_range_accepted_empty :
    ∀ f0 f1 f2 f3 f4, validOctet f0 → validOctet f1 → validOctet f2 →
      validOctet f3 → validOctet f4 → decVal f4 < decVal f3 →
      parseIPToken (joinChar ('.') [f0, f1, f2, f3] ++ ('-') :: f4) =
        Except.ok (Range.mk
          (v4mapped (decVal f0) (decVal f1) (decVal f2) (decVal f3))
          (v4mapped (decVal f0) (decVal f1) (decVal f2) (decVal f4))) ∧
      ∀ w x y z, w ≤ 255 → x ≤ 255 → y ≤ 255 → z ≤ 255 →
        (Range.mk (v4mapped (decVal f0) (decVal f1) (decVal f2) (decVal f3))
          (v4mapped (decVal f0) (decVal f1) (decVal f2) (decVal f4))).InRange
            (v4mapped w x y z) = false := by
  intro f0 f1 f2 f3 f4 h0 h1 h2 h3 h4 hinv
  have b0 := (parseOctet_some (parseOctet_of_valid h0)).2.2
  have b1 := (parseOctet_some (parseOctet_of_valid h1)).2.2
  have b2 := (parseOctet_some (parseOctet_of_valid h2)).2.2
  have b3 := (parseOctet_some (parseOctet_of_valid h3)).2.2
  have b4 := (parseOctet_some (parseOctet_of_valid h4)).2.2
  refine ⟨parseIPToken_dash h0 h1 h2 h3 h4, ?_⟩
  intro w x y z hw hx hy hz
  cases hb : (Range.mk (v4mapped (decVal f0) (decVal f1) (decVal f2) (decVal f3))
      (v4mapped (decVal f0) (decVal f1) (decVal f2) (decVal f4))).InRange
        (v4mapped w x y z) with
  | false => rfl
  | true =>
    exfalso
    have := (InRange_v4_iff b0 b1 b2 b3 b0 b1 b2 b4 hw hx hy hz).mp hb
    unfold ipNum at this
    omega

/-- Witness for the amended C4 at the concrete token `10.0.0.150-1`. -/
theorem C4_witness :
    parseIPToken (("10.0.0.150-1").data) =
      Except.ok (Range.mk (v4mapped 10 0 0 150) (v4mapped 10 0 0 1)) ∧
    (Range.mk (v4mapped 10 0 0 150) (v4mapped 10 0 0 1)).InRange
      (v4mapped 10 0 0 42) = false := by
  have h := C4_inverted_range_accepted_empty [('1'), ('0')] [('0')] [('0')]
    [('1'), ('5'), ('0')] [('1')] (by decide) (by decide) (by decide)
    (by decide) (by decide) (by decide)
  exact ⟨h.1, h.2 10 0 0 42 (by omega) (by omega) (by omega) (by omega)⟩

/-- C5.  Single-rule polarity: for an in-scope request with a resolved
client address (and a successful lookup when country codes are
active), the match bit is the OR of the country-code criterion and the
range criterion, and the verdict is deny on match under `block`,
proceed otherwise, with the outcomes inverted under `allow`. -/
theorem C5_single_rule_polarity (g : Globals) (cfg : IPFConfig) (co : Collab)
    (r : Request) (clientIP : Bytes) (cc : String)
    (hscope : (cfg.PathScopes.find? (fun s => pathMatches r.path s)).isSome = true)
    (hip : getClientIP co g.strict r = Except.ok clientIP)
    (hcc : g.hasCountryCodes = true → co.lookup clientIP = Except.ok cc) :
    ServeHTTP g cfg co r =
      if (g.hasCountryCodes && cfg.CountryCodes.any (fun c => cc = c)) ||
          (g.hasRanges && cfg.Ranges.any (fun rng => rng.InRange clientIP)) then
        if g.isBlock then
          Outcome.res (block cfg.BlockPage co.fs).1 (block cfg.BlockPage co.fs).2
        else Outcome.next
      else
        if g.isBlock then Outcome.next
        else Outcome.res (block cfg.BlockPage co.fs).1 (block cfg.BlockPage co.fs).2 := by
  unfold ServeHTTP
  rcases hf : cfg.PathScopes.find? (fun s => pathMatches r.path s) with _ | sc
  · rw [hf] at hscope
    exact absurd hscope (by simp)
  · unfold serveMatched
    rw [hip]
    cases hC : g.hasCountryCodes with
    | false =>
      cases hR : g.hasRanges with
      | false => simp [serveTail, hC, hR, Status.Any]
      | true => simp [serveTail, hC, hR, Status.Any]
    | true =>
      simp only [hcc hC]
      cases hR : g.hasRanges with
      | false => simp [serveTail, hC, hR, Status.Any]
      | true => simp [serveTail, hC, hR, Status.Any]

/-- Witness for C5: a concrete in-scope request from an address in the
configured range, under a block rule, is denied with 403. -/
theorem C5_witness :
    ServeHTTP ⟨false, true, true, false⟩
      ⟨["/"], "block", "", [], [Range.mk (v4mapped 9 9 9 9) (v4mapped 9 9 9 9)], false⟩
      co0 ⟨"/x", "", some ("9.9.9.9")⟩ = Outcome.res 403 "" := by
  have h := C5_single_rule_polarity ⟨false, true, true, false⟩
    ⟨["/"], "block", "", [], [Range.mk (v4mapped 9 9 9 9) (v4mapped 9 9 9 9)], false⟩
    co0 ⟨"/x", "", some ("9.9.9.9")⟩ (v4mapped 9 9 9 9) ""
    (by decide) rfl (fun hx => absurd hx (by decide))
  simpa using h

/-- C6.  Forwarded-header precedence: with `strict` set the header has
no influence (only the peer address is read, both for the resolved
address and for the whole decision); without `strict`, a non-empty
header alone determines the resolved address and the peer address has
no influence on the decision. -/
theorem C6_forwarded_header_precedence :
    (∀ co r r2, r.peerHost = r2.peerHost →
      getClientIP co true r = getClientIP co true r2) ∧
    (∀ g cfg co r r2, g.strict = true → r.peerHost = r2.peerHost →
      r.path = r2.path → ServeHTTP g cfg co r = ServeHTTP g cfg co r2) ∧
    (∀ co r, r.xff ≠ "" → getClientIP co false r =
      (match co.netParseIP r.xff with
        | none => Except.error ()
        | some ip => Except.ok ip)) ∧
    (∀ g cfg co r r2, g.strict = false → r.xff = r2.xff → r.xff ≠ "" →
      r.path = r2.path → ServeHTTP g cfg co r = ServeHTTP g cfg co r2) := by
  have hgc1 : ∀ (co : Collab) (r r2 : Request), r.peerHost = r2.peerHost →
      getClientIP co true r = getClientIP co true r2 := by
    intro co r r2 h
    unfold getClientIP
    simp [h]
  have hgc2 : ∀ (co : Collab) (r r2 : Request), r.xff = r2.xff → r.xff ≠ "" →
      getClientIP co false r = getClientIP co false r2 := by
    intro co r r2 h hne
    unfold getClientIP
    rw [if_pos (by simp [hne]), if_pos (by simp [h ▸ hne])]
    rw [h]
  have hserve : ∀ (g : Globals) (cfg : IPFConfig) (co : Collab) (r r2 : Request),
      getClientIP co g.strict r = getClientIP co g.strict r2 →
      r.path = r2.path → ServeHTTP g cfg co r = ServeHTTP g cfg co r2 := by
    intro g cfg co r r2 hgc hp
    unfold ServeHTTP
    rw [hp]
    rcases cfg.PathScopes.find? (fun s => pathMatches r2.path s) with _ | sc
    · rfl
    · unfold serveMatched
      rw [hgc]
  refine ⟨hgc1, ?_, ?_, ?_⟩
  · intro g cfg co r r2 hs hpeer hpath
    exact hserve g cfg co r r2 (by rw [hs]; exact hgc1 co r r2 hpeer) hpath
  · intro co r hne
    unfold getClientIP
    rw [if_pos (by simp [hne])]
  · intro g cfg co r r2 hs hx hne hpath
    exact hserve g cfg co r r2 (by rw [hs]; exact hgc2 co r r2 hx hne) hpath

/-- Witness for C6: under strict mode, two concrete requests differing
only in the forwarded header get the same outcome; ditto without
strict for requests differing only in the peer address. -/
theorem C6_witness :
    ServeHTTP ⟨false, true, true, true⟩
        ⟨["/"], "block", "", [], [Range.mk (v4mapped 9 9 9 9) (v4mapped 9 9 9 9)], false⟩
        co0 ⟨"/x", "1.2.3.4", some ("9.9.9.9")⟩ =
      ServeHTTP ⟨false, true, true, true⟩
        ⟨["/"], "block", "", [], [Range.mk (v4mapped 9 9 9 9) (v4mapped 9 9 9 9)], false⟩
        co0 ⟨"/x", "", some ("9.9.9.9")⟩ ∧
    ServeHTTP ⟨false, true, true, false⟩
        ⟨["/"], "block", "", [], [Range.mk (v4mapped 9 9 9 9) (v4mapped 9 9 9 9)], false⟩
        co0 ⟨"/x", "1.2.3.4", some ("9.9.9.9")⟩ =
      ServeHTTP ⟨false, true, true, false⟩
        ⟨["/"], "block", "", [], [Range.mk (v4mapped 9 9 9 9) (v4mapped 9 9 9 9)], false⟩
        co0 ⟨"/x", "1.2.3.4", none⟩ := by
  constructor
  · exact C6_forwarded_header_precedence.2.1 ⟨false, true, true, true⟩
      ⟨["/"], "block", "", [], [Range.mk (v4mapped 9 9 9 9) (v4mapped 9 9 9 9)], false⟩
      co0 ⟨"/x", "1.2.3.4", some ("9.9.9.9")⟩ ⟨"/x", "", some ("9.9.9.9")⟩
      rfl rfl rfl
  · exact C6_forwarded_header_precedence.2.2.2 ⟨false, true, true, false⟩
      ⟨["/"], "block", "", [], [Range.mk (v4mapped 9 9 9 9) (v4mapped 9 9 9 9)], false⟩
      co0 ⟨"/x", "1.2.3.4", some ("9.9.9.9")⟩ ⟨"/x", "1.2.3.4", none⟩
      rfl rfl (by simp) rfl

/-- C9.  Request-time failure handling: for an in-scope request, an
unresolvable client address, or a failing country lookup while
country codes are active, makes `ServeHTTP` return the internal
server error outcome, never a match or non-match verdict. -/
theorem C9_request_time_failures :
    (∀ g cfg co r,
      (cfg.PathScopes.find? (fun s => pathMatches r.path s)).isSome = true →
      getClientIP co g.strict r = Except.error () →
      ServeHTTP g cfg co r = Outcome.err500) ∧
    (∀ g cfg co r clientIP,
      (cfg.PathScopes.find? (fun s => pathMatches r.path s)).isSome = true →
      getClientIP co g.strict r = Except.ok clientIP →
      g.hasCountryCodes = true →
      co.lookup clientIP = Except.error () →
      ServeHTTP g cfg co r = Outcome.err500) := by
  constructor
  · intro g cfg co r hscope hip
    unfold ServeHTTP
    rcases hf : cfg.PathScopes.find? (fun s => pathMatches r.path s) with _ | sc
    · rw [hf] at hscope
      exact absurd hscope (by simp)
    · unfold serveMatched
      rw [hip]
  · intro g cfg co r clientIP hscope hip hC hlook
    unfold ServeHTTP
    rcases hf : cfg.PathScopes.find? (fun s => pathMatches r.path s) with _ | sc
    · rw [hf] at hscope
      exact absurd hscope (by simp)
    · unfold serveMatched
      rw [hip]
      simp [hC, hlook]

/-- Witness for C9: a concrete in-scope request whose peer address is
unparsable yields the internal error outcome. -/
theorem C9_witness :
    ServeHTTP ⟨false, true, true, false⟩
      ⟨["/"], "block", "", [], [Range.mk (v4mapped 9 9 9 9) (v4mapped 9 9 9 9)], false⟩
      co0 ⟨"/x", "", some ("not-an-ip")⟩ = Outcome.err500 := by
  exact C9_request_time_failures.1 ⟨false, true, true, false⟩
    ⟨["/"], "block", "", [], [Range.mk (v4mapped 9 9 9 9) (v4mapped 9 9 9 9)], false⟩
    co0 ⟨"/x", "", some ("not-an-ip")⟩ (by decide) rfl

theorem serveTail_res {g : Globals} {cfg : IPFConfig} {co : Collab}
    {ip : Bytes} {rs0 : Status} {s : Nat} {b : String}
    (h : serveTail g cfg co ip rs0 = Outcome.res s b) :
    (s, b) = block cfg.BlockPage co.fs := by
  unfold serveTail at h
  dsimp only at h
  repeat' split at h
  all_goals simp at h
  all_goals obtain ⟨h1, h2⟩ := h
  all_goals rw [← h1, ← h2]
  all_goals exact Prod.mk.eta

/-- C8.  Deny response shape: every response the filter produces comes
from `block`; with a block page configured and readable the status is
200 with the page contents as body, with none configured it is 403
with empty body, and with a failing open or copy it is 500. -/
theorem C8_deny_response_shape :
    (∀ g cfg co r s b, ServeHTTP g cfg co r = Outcome.res s b →
      (s, b) = block cfg.BlockPage co.fs) ∧
    (∀ page fs c, page ≠ "" → fs page = FileResult.ok c →
      block page fs = (200, c)) ∧
    (∀ fs, block "" fs = (403, "")) ∧
    (∀ page fs, page ≠ "" →
      (fs page = FileResult.openErr ∨ fs page = FileResult.copyErr) →
      block page fs = (500, "")) := by
  refine ⟨?_, ?_, ?_, ?_⟩
  · intro g cfg co r s b h
    unfold ServeHTTP at h
    split at h
    · unfold serveMatched at h
      split at h
      · simp at h
      · split at h
        · split at h
          · simp at h
          · exact serveTail_res h
        · exact serveTail_res h
    · simp at h
  · intro page fs c hne hok
    unfold block
    rw [if_pos hne, hok]
  · intro fs
    rfl
  · intro page fs hne hfail
    unfold block
    rcases hfail with hfa | hfa <;> rw [if_pos hne, hfa]

/-- Witness for C8: a concrete denied request with a configured,
readable block page produces status 200 with the page body, which is
exactly the output of `block`. -/
theorem C8_witness :
    ((200 : Nat), "BLOCKED") = block ("bp.html") coPage.fs := by
  exact C8_deny_response_shape.1 ⟨false, true, true, false⟩
    ⟨["/"], "block", "bp.html", [],
      [Range.mk (v4mapped 9 9 9 9) (v4mapped 9 9 9 9)], false⟩
    coPage ⟨"/x", "", some ("9.9.9.9")⟩ 200 "BLOCKED" rfl

theorem flagsMono_refl (g : Globals) : flagsMono g g :=
  ⟨id, id, id, id⟩

theorem flagsMono_trans {a b c : Globals} (h1 : flagsMono a b)
    (h2 : flagsMono b c) : flagsMono a c :=
  ⟨fun h => h2.1 (h1.1 h), fun h => h2.2.1 (h1.2.1 h),
    fun h => h2.2.2.1 (h1.2.2.1 h), fun h => h2.2.2.2 (h1.2.2.2 h)⟩

theorem flagsMono_setRanges (g : Globals) :
    flagsMono g { g with hasRanges := true } := by
  refine ⟨?_, ?_, ?_, ?_⟩ <;> intro h <;> simp_all

theorem flagsMono_setBlock (g : Globals) :
    flagsMono g { g with isBlock := true } := by
  refine ⟨?_, ?_, ?_, ?_⟩ <;> intro h <;> simp_all

theorem flagsMono_setCountry (g : Globals) :
    flagsMono g { g with hasCountryCodes := true } := by
  refine ⟨?_, ?_, ?_, ?_⟩ <;> intro h <;> simp_all

theorem flagsMono_setStrict (g : Globals) :
    flagsMono g { g with strict := true } := by
  refine ⟨?_, ?_, ?_, ?_⟩ <;> intro h <;> simp_all

theorem addIPTokens_mono : ∀ (ts : List String) (g : Globals)
    (cfg : IPFConfig), flagsMono g (addIPTokens g cfg ts).1 := by
  intro ts
  induction ts with
  | nil => intro g cfg; exact flagsMono_refl g
  | cons t ts ih =>
    intro g cfg
    unfold addIPTokens
    cases h : parseIPToken t.data with
    | error e => exact flagsMono_refl g
    | ok r =>
      exact flagsMono_trans (flagsMono_setRanges g) (ih _ _)

theorem parseDirective_mono (d : Directive) (g : Globals) (cfg : IPFConfig) :
    flagsMono g (parseDirective g cfg d).1 := by
  cases d with
  | rule arg =>
    simp only [parseDirective]
    split_ifs <;> first
      | exact flagsMono_setBlock g
      | exact flagsMono_refl g
  | database path openOK =>
    simp only [parseDirective]
    split_ifs <;> exact flagsMono_refl g
  | blockpage path present =>
    simp only [parseDirective]
    split_ifs <;> exact flagsMono_refl g
  | country codes =>
    simp only [parseDirective]
    split_ifs <;> first
      | exact flagsMono_setCountry g
      | exact flagsMono_refl g
  | ip tokens =>
    simp only [parseDirective]
    split_ifs <;> first
      | exact flagsMono_refl g
      | exact addIPTokens_mono tokens g cfg
  | strict =>
    exact flagsMono_setStrict g

theorem parseBlockDirectives_mono : ∀ (ds : List Directive) (g : Globals)
    (cfg : IPFConfig), flagsMono g (parseBlockDirectives g cfg ds).1 := by
  intro ds
  induction ds with
  | nil => intro g cfg; exact flagsMono_refl g
  | cons d ds ih =>
    intro g cfg
    unfold parseBlockDirectives
    have hd := parseDirective_mono d g cfg
    rcases hp : parseDirective g cfg d with ⟨g2, res⟩
    rw [hp] at hd
    cases res with
    | error e => exact hd
    | ok cfg2 => exact flagsMono_trans hd (ih g2 cfg2)

theorem parseBlocks_mono : ∀ (bs : List ConfigBlock) (g : Globals)
    (cfg : IPFConfig), flagsMono g (parseBlocks g cfg bs).1 := by
  intro bs
  induction bs with
  | nil => intro g cfg; exact flagsMono_refl g
  | cons b bs ih =>
    intro g cfg
    unfold parseBlocks
    split
    · exact flagsMono_refl g
    · have hd := parseBlockDirectives_mono b.directives g
        { cfg with PathScopes := b.pathScopes }
      rcases hp : parseBlockDirectives g { cfg with PathScopes := b.pathScopes }
          b.directives with ⟨g2, res⟩
      rw [hp] at hd
      cases res with
      | error e => exact hd
      | ok cfg2 => exact flagsMono_trans hd (ih g2 cfg2)

theorem ipfilterParse_mono (g : Globals) (blocks : List ConfigBlock) :
    flagsMono g (ipfilterParse g blocks).1 := by
  unfold ipfilterParse
  have hd := parseBlocks_mono blocks g emptyConfig
  split
  · rename_i g2 e heq
    rw [heq] at hd
    exact hd
  · rename_i g2 cfg heq
    rw [heq] at hd
    split_ifs <;> exact hd

/-- C10.  Global flag leakage: the package-level flags are only ever
turned on by `ipfilterParse`, never off, so a flag set by one parsed
block stays set for later parses; the flags govern request
evaluation, so the same config value evaluated under clean flags and
under flags leaked from an earlier `rule block`/`strict` config gives
different outcomes for the same request. -/
theorem C10_global_flag_leakage :
    (∀ g blocks, flagsMono g (ipfilterParse g blocks).1) ∧
    (ipfilterParse initGlobals
        [⟨["/"], [Directive.strict, Directive.rule ("block"),
          Directive.ip [("1.2.3.4")]]⟩]).1 = ⟨false, true, true, true⟩ ∧
    ipfilterParse initGlobals
        [⟨["/"], [Directive.rule ("allow"), Directive.ip [("9.9.9.9")]]⟩] =
      (⟨false, true, false, false⟩, Except.ok
        ⟨["/"], "allow", "", [],
          [Range.mk (v4mapped 9 9 9 9) (v4mapped 9 9 9 9)], false⟩) ∧
    ipfilterParse ⟨false, true, true, true⟩
        [⟨["/"], [Directive.rule ("allow"), Directive.ip [("9.9.9.9")]]⟩] =
      (⟨false, true, true, true⟩, Except.ok
        ⟨["/"], "allow", "", [],
          [Range.mk (v4mapped 9 9 9 9) (v4mapped 9 9 9 9)], false⟩) ∧
    ServeHTTP ⟨false, true, false, false⟩
        ⟨["/"], "allow", "", [],
          [Range.mk (v4mapped 9 9 9 9) (v4mapped 9 9 9 9)], false⟩
        co0 ⟨"/x", "", some ("9.9.9.9")⟩ = Outcome.next ∧
    ServeHTTP ⟨false, true, true, true⟩
        ⟨["/"], "allow", "", [],
          [Range.mk (v4mapped 9 9 9 9) (v4mapped 9 9 9 9)], false⟩
        co0 ⟨"/x", "", some ("9.9.9.9")⟩ = Outcome.res 403 "" := by
  exact ⟨ipfilterParse_mono, rfl, rfl, rfl, rfl, rfl⟩

/-- Witness for C10: flags set before a parse are still set after it,
at a concrete earlier-flag state and config. -/
theorem C10_witness :
    ((ipfilterParse ⟨false, false, true, true⟩
        [⟨["/"], [Directive.ip [("1.2.3.4")]]⟩]).1.isBlock = true) ∧
    ((ipfilterParse ⟨false, false, true, true⟩
        [⟨["/"], [Directive.ip [("1.2.3.4")]]⟩]).1.strict = true) := by
  exact ⟨(C10_global_flag_leakage.1 ⟨false, false, true, true⟩
      [⟨["/"], [Directive.ip [("1.2.3.4")]]⟩]).2.2.1 rfl,
    (C10_global_flag_leakage.1 ⟨false, false, true, true⟩
      [⟨["/"], [Directive.ip [("1.2.3.4")]]⟩]).2.2.2 rfl⟩

end IPF
